import Mathlib

/-!
Verification of the personalization-engine core: the Bayesian Knowledge
Tracing mastery update of the signal-processor worker, the event consumer's
validation and skip behaviour, the recommendation selection, and the report
generator's mastery-band partition.  All numeric state is modelled with
exact rationals; Python dictionaries are modelled as association lists in
insertion order; database rows are lists of profile records.
-/

namespace PersonalizationEngine

/-- A JSON-ish value as it can appear in an event's `data.isCorrect` field:
absent (`none`), a boolean, or a string. -/
inductive PyVal where
  | none
  | bool (b : Bool)
  | str (s : String)
deriving DecidableEq

/-- Python truthiness of a `PyVal`: `None` and `""` are falsy. -/
def pyTruthy : PyVal → Bool
  | .none => false
  | .bool b => b
  | .str s => decide (s ≠ "")

/-- Python truthiness of an optional string field (`None` and `""` falsy). -/
def truthyOpt : Option String → Bool
  | Option.none => false
  | Option.some s => decide (s ≠ "")

/-- The `data` object of an interaction event. -/
structure EventData where
  conceptId : Option String
  isCorrect : PyVal
deriving DecidableEq

/-- An interaction event as consumed by the worker. -/
structure Event where
  interactionType : Option String
  userId : Option String
  data : EventData
deriving DecidableEq

/-- A learner-profile row: user id, competence map (concept ↦ mastery,
in dictionary insertion order), engagement score. -/
structure LearnerProfile where
  userId : String
  competenceMap : List (String × ℚ)
  engagementScore : ℚ
deriving DecidableEq

/-- Dictionary lookup: first binding of the key, if any. -/
def mapGet : List (String × ℚ) → String → Option ℚ
  | [], _ => Option.none
  | (k, v) :: rest, key => if k = key then Option.some v else mapGet rest key

/-- Dictionary assignment: replace the first binding of the key in place,
else append (Python `dict` update semantics, preserving insertion order). -/
def mapSet : List (String × ℚ) → String → ℚ → List (String × ℚ)
  | [], key, v => [(key, v)]
  | (k, w) :: rest, key, v =>
    if k = key then (key, v) :: rest else (k, w) :: mapSet rest key v

/-! ## The BKT mastery update (signal_processor/worker.py, lines 51-78) -/

/-- Constant `prob_learn = 0.10`. -/
def probLearn : ℚ := 10 / 100

/-- Constant `prob_slip = 0.15`. -/
def probSlip : ℚ := 15 / 100

/-- Constant `prob_guess = 0.25`. -/
def probGuess : ℚ := 25 / 100

/-- The Bayes-rule denominator of the worker's update. -/
def bktDenom (prior : ℚ) (correct : Bool) : ℚ :=
  if correct then prior * (1 - probSlip) + (1 - prior) * probGuess
  else prior * probSlip + (1 - prior) * (1 - probGuess)

/-- The worker's `prob_know_if_correct` / `prob_know_if_incorrect`. -/
def probKnowGivenObs (prior : ℚ) (correct : Bool) : ℚ :=
  if correct then prior * (1 - probSlip) / bktDenom prior correct
  else prior * probSlip / bktDenom prior correct

/-- The worker's `updated_prob_know`: Bayes posterior followed by the learning
transition. -/
def masteryUpdate (prior : ℚ) (correct : Bool) : ℚ :=
  probKnowGivenObs prior correct + (1 - probKnowGivenObs prior correct) * probLearn

/-- Spec constant `pLearn = 0.10`. -/
def pLearn : ℚ := 10 / 100

/-- Spec constant `pSlip = 0.15`. -/
def pSlip : ℚ := 15 / 100

/-- Spec constant `pGuess = 0.25`. -/
def pGuess : ℚ := 25 / 100

/-- The mastery update as worded by the spec (§4.1): Bayes' rule on the
observation, then the learning transition.  Stated separately from
`masteryUpdate` so the two can be compared. -/
def masteryUpdateSpec (prior : ℚ) (correct : Bool) : ℚ :=
  if correct then
    prior * (1 - pSlip) / (prior * (1 - pSlip) + (1 - prior) * pGuess)
      + (1 - prior * (1 - pSlip) / (prior * (1 - pSlip) + (1 - prior) * pGuess)) * pLearn
  else
    prior * pSlip / (prior * pSlip + (1 - prior) * (1 - pGuess))
      + (1 - prior * pSlip / (prior * pSlip + (1 - prior) * (1 - pGuess))) * pLearn

/-- Round-half-to-even to an integer (the rounding of Python's `round`). -/
def roundHalfEven (x : ℚ) : ℤ :=
  if x - ⌊x⌋ < 1 / 2 then ⌊x⌋
  else if (1 : ℚ) / 2 < x - ⌊x⌋ then ⌊x⌋ + 1
  else if ⌊x⌋ % 2 = 0 then ⌊x⌋ else ⌊x⌋ + 1

/-- Python `round(x, 4)`. -/
def round4 (x : ℚ) : ℚ := (roundHalfEven (x * 10000) : ℚ) / 10000

/-! ## The event consumer (signal_processor/worker.py) -/

/-- How `process_interaction_event` disposed of one event: ignored a
non-quiz event, skipped an invalid one (printed report), skipped for a
missing profile (printed report), or updated a profile. -/
inductive ProcessOutcome where
  | ignoredType
  | skippedInvalid
  | profileNotFound
  | updated
deriving DecidableEq

/-- Lookup `db.query(LearnerProfile).filter(userId == uid).first()`. -/
def findProfile (db : List LearnerProfile) (uid : String) : Option LearnerProfile :=
  db.find? (fun p => p.userId == uid)

/-- Persisting the mutation of the profile object returned by `first()`:
the first row with this user id is replaced. -/
def replaceFirstProfile : List LearnerProfile → String → LearnerProfile → List LearnerProfile
  | [], _, _ => []
  | p :: rest, uid, q =>
    if p.userId = uid then q :: rest else p :: replaceFirstProfile rest uid q

/-- The worker's validity check, line 41:
`all([user_id, concept_id, is_correct is not None])`. -/
def eventAccepted (e : Event) : Bool :=
  truthyOpt e.userId && truthyOpt e.data.conceptId && decide (e.data.isCorrect ≠ PyVal.none)

/-- The worker's `process_interaction_event`: ignore non-quiz events, skip invalid ones,
skip when the profile is missing, otherwise run the BKT update on the
concept's current probability (default prior 0.10) and write the rounded
result back into the competence map. -/
def processInteractionEvent (db : List LearnerProfile) (e : Event) :
    List LearnerProfile × ProcessOutcome :=
  if e.interactionType ≠ Option.some "QUIZ_ATTEMPT" then (db, ProcessOutcome.ignoredType)
  else if eventAccepted e = false then (db, ProcessOutcome.skippedInvalid)
  else
    let uid := e.userId.getD ""
    match findProfile db uid with
    | Option.none => (db, ProcessOutcome.profileNotFound)
    | Option.some profile =>
      let cid := e.data.conceptId.getD ""
      let prior := (mapGet profile.competenceMap cid).getD (10 / 100)
      let updatedProbKnow := masteryUpdate prior (pyTruthy e.data.isCorrect)
      (replaceFirstProfile db uid
        { profile with competenceMap := mapSet profile.competenceMap cid (round4 updatedProbKnow) },
        ProcessOutcome.updated)

/-- The worker `main` loop's handling of one batch of messages:
`for message in messages: process_interaction_event(db, message)`. -/
def processMessages (db : List LearnerProfile) (events : List Event) : List LearnerProfile :=
  events.foldl (fun acc e => (processInteractionEvent acc e).1) db

/-! ## Recommendation selection (decision_engine/main.py and main.py,
`get_recommendation`) -/

/-- Constant `mastery_threshold = 0.90`. -/
def masteryThreshold : ℚ := 90 / 100

/-- One insertion step of a stable sort on the mastery value (a new element
goes before the first strictly greater one, hence after all equal ones). -/
def insertByValue (a : String × ℚ) : List (String × ℚ) → List (String × ℚ)
  | [] => [a]
  | b :: bs => if a.2 ≤ b.2 then a :: b :: bs else b :: insertByValue a bs

/-- Python's stable `sorted(..., key=lambda item: item[1])`. -/
def sortByValue (l : List (String × ℚ)) : List (String × ℚ) :=
  l.foldr insertByValue []

/-- The concept-selection part of `get_recommendation`: 404 when the
competence map is empty, `none` when everything is at or above the mastery
threshold, else the head of the stable sort of the below-threshold items. -/
def selectTarget (competenceMap : List (String × ℚ)) : Except String (Option String) :=
  if competenceMap.isEmpty then Except.error "Learner profile not found or is empty."
  else
    match sortByValue (competenceMap.filter (fun it => decide (it.2 < masteryThreshold))) with
    | [] => Except.ok Option.none
    | it :: _ => Except.ok (Option.some it.1)

/-- Lexicographic minimum of two (concept, mastery) pairs: smaller mastery
first, ties by the smaller concept identifier. -/
def lexMin (a b : String × ℚ) : String × ℚ :=
  if b.2 < a.2 ∨ (b.2 = a.2 ∧ b.1 < a.1) then b else a

/-- The selection as the claim words it: minimum mastery below the
threshold, ties broken by lexicographic order of the concept identifier. -/
def selectTargetLexSpec (m : List (String × ℚ)) : Except String (Option String) :=
  if m.isEmpty then Except.error "Learner profile not found or is empty."
  else
    match m.filter (fun it => decide (it.2 < masteryThreshold)) with
    | [] => Except.ok Option.none
    | x :: xs => Except.ok (Option.some (xs.foldl lexMin x).1)

/-- First pair with the minimum mastery value: on a tie the earlier pair
in the list is kept. -/
def firstMin : List (String × ℚ) → Option (String × ℚ)
  | [] => Option.none
  | a :: l =>
    match firstMin l with
    | Option.none => Option.some a
    | Option.some b => Option.some (if a.2 ≤ b.2 then a else b)

/-- The selection with the tie-break the code actually has: minimum
mastery below the threshold, ties broken by the earliest position in the
map's insertion order. -/
def selectTargetStableSpec (m : List (String × ℚ)) : Except String (Option String) :=
  if m.isEmpty then Except.error "Learner profile not found or is empty."
  else
    match firstMin (m.filter (fun it => decide (it.2 < masteryThreshold))) with
    | Option.none => Except.ok Option.none
    | Option.some p => Except.ok (Option.some p.1)

/-! ## Report generation (report_generator/generate.py) -/

/-- The `strengths` list: concepts whose score is at least 0.90. -/
def strengthsOf (m : List (String × ℚ)) : List String :=
  (m.filter (fun it => decide ((90 : ℚ) / 100 ≤ it.2))).map Prod.fst

/-- The `weaknesses` list: concepts whose score is below 0.60. -/
def weaknessesOf (m : List (String × ℚ)) : List String :=
  (m.filter (fun it => decide (it.2 < (60 : ℚ) / 100))).map Prod.fst

/-- The `report_data` dictionary built by `generate_report_for_user`;
`details` is optional so that a report without the paid block is
representable. -/
structure ReportData where
  summary : String
  details : Option (List String)
  strengths : List String
  weaknesses : List String
  engagementScore : ℚ
deriving DecidableEq

/-- The `detailed_analysis` block the comments reserve for paid users. -/
def detailedAnalysis : List String := ["some_deep_insight"]

/-- The `summary_analysis` free-tier summary string. -/
def summaryAnalysis (recentActivityCount : ℕ) (strengths : List String) : String :=
  "You completed " ++ toString recentActivityCount ++
    " activities this week. Your key strengths are in " ++
    String.intercalate ", " (strengths.take 2) ++ "."

/-- The job `generate_report_for_user` with the activity count supplied by the
activity-log collaborator: no report when the profile is missing or its
competence map is empty, else the report dictionary the code builds. -/
def generateReportForUser (db : List LearnerProfile) (uid : String)
    (recentActivityCount : ℕ) : Option ReportData :=
  match findProfile db uid with
  | Option.none => Option.none
  | Option.some profile =>
    if profile.competenceMap.isEmpty then Option.none
    else
      Option.some
        { summary := summaryAnalysis recentActivityCount (strengthsOf profile.competenceMap)
          details := Option.some detailedAnalysis
          strengths := strengthsOf profile.competenceMap
          weaknesses := weaknessesOf profile.competenceMap
          engagementScore := profile.engagementScore }

/-! ## Helper lemmas about the BKT update -/

theorem bktDenom_pos (p : ℚ) (h0 : 0 ≤ p) (h1 : p ≤ 1) (c : Bool) :
    0 < bktDenom p c := by
  cases c <;> simp [bktDenom, probSlip, probGuess] <;> nlinarith

theorem probKnowGivenObs_nonneg (p : ℚ) (h0 : 0 ≤ p) (h1 : p ≤ 1) (c : Bool) :
    0 ≤ probKnowGivenObs p c := by
  have hd := bktDenom_pos p h0 h1 c
  cases c <;>
    · simp only [probKnowGivenObs, if_true, if_false, Bool.false_eq_true]
      apply div_nonneg _ hd.le
      simp [probSlip, probGuess]
      nlinarith

theorem probKnowGivenObs_le_one (p : ℚ) (h0 : 0 ≤ p) (h1 : p ≤ 1) (c : Bool) :
    probKnowGivenObs p c ≤ 1 := by
  have hd := bktDenom_pos p h0 h1 c
  cases c <;>
    · simp only [probKnowGivenObs, if_true, if_false, Bool.false_eq_true]
      rw [div_le_one hd]
      simp only [bktDenom, if_true, if_false, Bool.false_eq_true,
        probSlip, probGuess] at *
      nlinarith

/-- Claim C4: for every prior in [0,1] and either correctness flag, the
mastery update returns a value in [0,1]. -/
theorem claim_C4_update_in_unit_interval (prior : ℚ) (correct : Bool)
    (h0 : 0 ≤ prior) (h1 : prior ≤ 1) :
    0 ≤ masteryUpdate prior correct ∧ masteryUpdate prior correct ≤ 1 := by
  have hq0 := probKnowGivenObs_nonneg prior h0 h1 correct
  have hq1 := probKnowGivenObs_le_one prior h0 h1 correct
  unfold masteryUpdate probLearn
  constructor <;> nlinarith

/-- Witness for C4 at prior = 1/2 with a correct answer. -/
theorem claim_C4_witness :
    0 ≤ masteryUpdate (1 / 2) true ∧ masteryUpdate (1 / 2) true ≤ 1 :=
  claim_C4_update_in_unit_interval (1 / 2) true (by norm_num) (by norm_num)

/-- Claim C6: for every fixed prior in [0,1], the update after a correct
answer is at least the update after an incorrect answer. -/
theorem claim_C6_correct_ge_incorrect (prior : ℚ)
    (h0 : 0 ≤ prior) (h1 : prior ≤ 1) :
    masteryUpdate prior false ≤ masteryUpdate prior true := by
  have hdt := bktDenom_pos prior h0 h1 true
  have hdf := bktDenom_pos prior h0 h1 false
  have hq : probKnowGivenObs prior false ≤ probKnowGivenObs prior true := by
    simp only [probKnowGivenObs, if_true, if_false, Bool.false_eq_true]
    rw [div_le_div_iff₀ hdf hdt]
    simp only [bktDenom, if_true, if_false, Bool.false_eq_true,
      probSlip, probGuess] at *
    nlinarith [mul_nonneg h0 (by linarith : (0:ℚ) ≤ 1 - prior)]
  unfold masteryUpdate probLearn
  nlinarith

/-- Witness for C6 at prior = 1/2. -/
theorem claim_C6_witness :
    masteryUpdate (1 / 2) false ≤ masteryUpdate (1 / 2) true :=
  claim_C6_correct_ge_incorrect (1 / 2) (by norm_num) (by norm_num)

/-- Claim C8: at the boundary priors 0 and 1, with the fixed parameters,
every Bayes denominator is nonzero and the update equals
`prior + (1 − prior)·pLearn`. -/
theorem claim_C8_boundary_priors :
    (bktDenom 0 true ≠ 0 ∧ bktDenom 0 false ≠ 0 ∧
      bktDenom 1 true ≠ 0 ∧ bktDenom 1 false ≠ 0) ∧
    (masteryUpdate 0 true = 0 + (1 - 0) * probLearn ∧
      masteryUpdate 0 false = 0 + (1 - 0) * probLearn ∧
      masteryUpdate 1 true = 1 + (1 - 1) * probLearn ∧
      masteryUpdate 1 false = 1 + (1 - 1) * probLearn) := by
  norm_num [bktDenom, masteryUpdate, probKnowGivenObs, probLearn, probSlip,
    probGuess]

/-- Counterexample for C7: with prior 0.1 and a correct answer the update
is 43/124 ≈ 0.3468, not the claimed ≈ 0.3588; the gap exceeds 0.01, so no
4-decimal rounding explains it. -/
theorem claim_C7_counterexample :
    masteryUpdate (1 / 10) true ≠ 3588 / 10000 ∧
    round4 (masteryUpdate (1 / 10) true) ≠ 3588 / 10000 ∧
    1 / 100 < 3588 / 10000 - masteryUpdate (1 / 10) true := by
  norm_num [round4, roundHalfEven, masteryUpdate, probKnowGivenObs, bktDenom,
    probLearn, probSlip, probGuess]

/-- Claim C7 (amended): with prior 0.1 and a correct answer the posterior
is exactly 43/124 ≈ 0.3468, and 0.3468 once rounded to 4 decimals. -/
theorem claim_C7_pinned_regression_value :
    masteryUpdate (1 / 10) true = 43 / 124 ∧
    round4 (masteryUpdate (1 / 10) true) = 3468 / 10000 := by
  norm_num [round4, roundHalfEven, masteryUpdate, probKnowGivenObs, bktDenom,
    probLearn, probSlip, probGuess]

/-- The worker's update formula coincides with the spec's wording of the
Bayes step and learning transition. -/
theorem masteryUpdate_eq_spec : masteryUpdate = masteryUpdateSpec := by
  funext p c
  cases c <;> rfl

/-! ## Concrete fixtures shared by several witnesses -/

/-- A profile with one concept at mastery 1/2. -/
def sampleProfile : LearnerProfile :=
  { userId := "u1", competenceMap := [("math", 1 / 2)], engagementScore := 0 }

/-- A well-formed quiz event with a boolean correctness flag. -/
def sampleEvent : Event :=
  { interactionType := Option.some "QUIZ_ATTEMPT", userId := Option.some "u1",
    data := { conceptId := Option.some "math", isCorrect := PyVal.bool true } }

/-- A quiz event whose `isCorrect` field is missing. -/
def invalidEvent : Event :=
  { interactionType := Option.some "QUIZ_ATTEMPT", userId := Option.some "u1",
    data := { conceptId := Option.some "math", isCorrect := PyVal.none } }

/-- A quiz event whose `isCorrect` field is the truthy string "false". -/
def strFalseEvent : Event :=
  { interactionType := Option.some "QUIZ_ATTEMPT", userId := Option.some "u1",
    data := { conceptId := Option.some "math", isCorrect := PyVal.str "false" } }

/-- Claim C1: for every valid quiz event whose user has a profile and whose
stored prior lies in [0,1], the worker's formula is the spec's Bayes rule
followed by the learning transition, and the value written back into the
competence map is that result rounded to 4 decimal places. -/
theorem claim_C1_bkt_update_written_back
    (db : List LearnerProfile) (e : Event) (p : LearnerProfile) (u c : String)
    (htype : e.interactionType = Option.some "QUIZ_ATTEMPT")
    (hu : e.userId = Option.some u) (hune : u ≠ "")
    (hc : e.data.conceptId = Option.some c) (hcne : c ≠ "")
    (hic : e.data.isCorrect ≠ PyVal.none)
    (hp : findProfile db u = Option.some p)
    (h0 : 0 ≤ (mapGet p.competenceMap c).getD (10 / 100))
    (h1 : (mapGet p.competenceMap c).getD (10 / 100) ≤ 1) :
    masteryUpdate = masteryUpdateSpec ∧
    (processInteractionEvent db e).1 =
      replaceFirstProfile db u
        { p with competenceMap := mapSet p.competenceMap c (round4 (masteryUpdateSpec ((mapGet p.competenceMap c).getD (10 / 100)) (pyTruthy e.data.isCorrect))) } := by
  refine ⟨masteryUpdate_eq_spec, ?_⟩
  have hacc : eventAccepted e = true := by
    simp [eventAccepted, hu, hc, truthyOpt, hune, hcne, hic]
  simp [processInteractionEvent, htype, hacc, hu, hc, hp, masteryUpdate_eq_spec]

/-- Witness for C1: one correct attempt on a concept stored at 1/2. -/
theorem claim_C1_witness :
    masteryUpdate = masteryUpdateSpec ∧
    (processInteractionEvent [sampleProfile] sampleEvent).1 =
      replaceFirstProfile [sampleProfile] "u1"
        { sampleProfile with competenceMap := mapSet sampleProfile.competenceMap "math" (round4 (masteryUpdateSpec ((mapGet sampleProfile.competenceMap "math").getD (10 / 100)) (pyTruthy sampleEvent.data.isCorrect))) } :=
  claim_C1_bkt_update_written_back [sampleProfile] sampleEvent sampleProfile
    "u1" "math" rfl rfl (by decide) rfl (by decide) (by decide) rfl
    (by norm_num [sampleProfile, mapGet]) (by norm_num [sampleProfile, mapGet])

/-- Claim C3: a quiz event that fails validation, or whose user has no
profile, is skipped with a reported condition, mutates no profile, and the
loop over the remaining messages continues as if the event were absent. -/
theorem claim_C3_skip_keeps_state_and_loop
    (db : List LearnerProfile) (e : Event) (rest : List Event)
    (htype : e.interactionType = Option.some "QUIZ_ATTEMPT")
    (hskip : eventAccepted e = false ∨
      findProfile db (e.userId.getD "") = Option.none) :
    (processInteractionEvent db e).1 = db ∧
    ((processInteractionEvent db e).2 = ProcessOutcome.skippedInvalid ∨
      (processInteractionEvent db e).2 = ProcessOutcome.profileNotFound) ∧
    processMessages db (e :: rest) = processMessages db rest := by
  have hmain : processInteractionEvent db e = (db, ProcessOutcome.skippedInvalid) ∨
      processInteractionEvent db e = (db, ProcessOutcome.profileNotFound) := by
    rcases hskip with hbad | hnop
    · left
      simp [processInteractionEvent, htype, hbad]
    · by_cases hacc : eventAccepted e = false
      · left
        simp [processInteractionEvent, htype, hacc]
      · right
        simp [processInteractionEvent, htype, hacc, hnop]
  have hfst : (processInteractionEvent db e).1 = db := by
    rcases hmain with h | h <;> rw [h]
  refine ⟨hfst, ?_, ?_⟩
  · rcases hmain with h | h
    · left; rw [h]
    · right; rw [h]
  · show processMessages ((processInteractionEvent db e).1) rest = _
    rw [hfst]

/-- Witness for C3: an event with `isCorrect` missing leaves the single
profile untouched and the loop proceeds to the next message. -/
theorem claim_C3_witness :
    (processInteractionEvent [sampleProfile] invalidEvent).1 = [sampleProfile] ∧
    ((processInteractionEvent [sampleProfile] invalidEvent).2 =
        ProcessOutcome.skippedInvalid ∨
      (processInteractionEvent [sampleProfile] invalidEvent).2 =
        ProcessOutcome.profileNotFound) ∧
    processMessages [sampleProfile] (invalidEvent :: [sampleEvent]) =
      processMessages [sampleProfile] [sampleEvent] :=
  claim_C3_skip_keeps_state_and_loop [sampleProfile] invalidEvent [sampleEvent]
    rfl (Or.inl (by decide))

/-- Claim C10: among quiz events, one is processed rather than skipped as
invalid exactly when `userId` is truthy, `data.conceptId` is truthy, and
`data.isCorrect` is not `None`; and the event whose `isCorrect` is the
truthy string "false" is processed as a correct answer. -/
theorem claim_C10_truthiness_validation :
    (∀ (db : List LearnerProfile) (e : Event),
      e.interactionType = Option.some "QUIZ_ATTEMPT" →
      ((processInteractionEvent db e).2 ≠ ProcessOutcome.skippedInvalid ↔
        (truthyOpt e.userId = true ∧ truthyOpt e.data.conceptId = true ∧
          e.data.isCorrect ≠ PyVal.none))) ∧
    processInteractionEvent [sampleProfile] strFalseEvent =
      ([{ sampleProfile with
            competenceMap := [("math", round4 (masteryUpdate (1 / 2) true))] }],
        ProcessOutcome.updated) := by
  constructor
  · intro db e ht
    have hiff : eventAccepted e = true ↔
        (truthyOpt e.userId = true ∧ truthyOpt e.data.conceptId = true ∧
          e.data.isCorrect ≠ PyVal.none) := by
      simp [eventAccepted, and_assoc]
    rw [← hiff]
    cases hacc : eventAccepted e with
    | false => simp [processInteractionEvent, ht, hacc]
    | true =>
      cases hfp : findProfile db (e.userId.getD "") with
      | none => simp [processInteractionEvent, ht, hacc, hfp]
      | some pr => simp [processInteractionEvent, ht, hacc, hfp]
  · rfl

/-- Witness for C10's quantified part at a concrete event. -/
theorem claim_C10_witness :
    (processInteractionEvent [] strFalseEvent).2 ≠ ProcessOutcome.skippedInvalid ↔
      (truthyOpt strFalseEvent.userId = true ∧
        truthyOpt strFalseEvent.data.conceptId = true ∧
        strFalseEvent.data.isCorrect ≠ PyVal.none) :=
  claim_C10_truthiness_validation.1 [] strFalseEvent rfl

/-! ## Helper lemmas about the stable sort used for selection -/

theorem sortByValue_cons (a : String × ℚ) (l : List (String × ℚ)) :
    sortByValue (a :: l) = insertByValue a (sortByValue l) := rfl

/-- The head of the stable sort by mastery value is the earliest pair with
the minimum value. -/
theorem head?_sortByValue (l : List (String × ℚ)) :
    (sortByValue l).head? = firstMin l := by
  induction l with
  | nil => rfl
  | cons a l ih =>
    rw [sortByValue_cons]
    cases hs : sortByValue l with
    | nil =>
      have h0 : firstMin l = Option.none := by rw [← ih, hs]; rfl
      simp [insertByValue, firstMin, h0]
    | cons b bs =>
      have hb : firstMin l = Option.some b := by rw [← ih, hs]; rfl
      by_cases hab : a.2 ≤ b.2
      · simp [insertByValue, firstMin, hb, hab]
      · simp [insertByValue, firstMin, hb, hab]

theorem firstMin_eq_none_iff (l : List (String × ℚ)) :
    firstMin l = Option.none ↔ l = [] := by
  cases l with
  | nil => simp [firstMin]
  | cons a t => cases h : firstMin t <;> simp [firstMin, h]

theorem sortByValue_eq_nil_iff (l : List (String × ℚ)) :
    sortByValue l = [] ↔ l = [] := by
  constructor
  · intro h
    have hh := head?_sortByValue l
    rw [h] at hh
    exact (firstMin_eq_none_iff l).mp hh.symm
  · intro h
    rw [h]
    rfl

theorem filter_below_eq_nil_iff (m : List (String × ℚ)) :
    m.filter (fun it => decide (it.2 < masteryThreshold)) = [] ↔
      ∀ p ∈ m, masteryThreshold ≤ p.2 := by
  induction m with
  | nil => simp
  | cons a t ih =>
    rw [List.filter_cons]
    by_cases ha : a.2 < masteryThreshold
    · simp [ha]
    · have ha' : masteryThreshold ≤ a.2 := le_of_not_lt ha
      simp [ha, ih, ha']

/-- Counterexample for C2: on the map `{b: 0.5, a: 0.5}` the code selects
`b` (the earlier dictionary entry), not the lexicographically smaller `a`;
and on an empty competence map the code reports not-found instead of
returning `None`. -/
theorem claim_C2_counterexample :
    selectTarget [("b", 1 / 2), ("a", 1 / 2)] = Except.ok (Option.some "b") ∧
    selectTargetLexSpec [("b", 1 / 2), ("a", 1 / 2)] = Except.ok (Option.some "a") ∧
    selectTarget [("b", 1 / 2), ("a", 1 / 2)] ≠
      selectTargetLexSpec [("b", 1 / 2), ("a", 1 / 2)] ∧
    selectTarget ([] : List (String × ℚ)) ≠ Except.ok Option.none := by
  have hab : (("a" : String) < "b") := by
    rw [String.lt_iff_toList_lt]
    decide
  have h1 : selectTarget [("b", 1 / 2), ("a", 1 / 2)] = Except.ok (Option.some "b") := by
    norm_num [selectTarget, sortByValue, insertByValue, masteryThreshold, List.filter]
  have h2 : selectTargetLexSpec [("b", 1 / 2), ("a", 1 / 2)] = Except.ok (Option.some "a") := by
    norm_num [selectTargetLexSpec, lexMin, masteryThreshold, List.filter, hab]
  refine ⟨h1, h2, ?_, ?_⟩
  · rw [h1, h2]
    simp
  · simp [selectTarget]

/-- Claim C2 (amended): the selection agrees with the earliest-minimum
specification `selectTargetStableSpec` — minimum mastery below the 0.90
threshold, ties broken by the earlier position in the map's insertion
order — and, on a non-empty map, returns `None` exactly when every concept
is at or above the threshold. -/
theorem claim_C2_selection_stable_min (m : List (String × ℚ)) :
    selectTarget m = selectTargetStableSpec m ∧
    (m ≠ [] → (selectTarget m = Except.ok Option.none ↔
      ∀ p ∈ m, masteryThreshold ≤ p.2)) := by
  constructor
  · unfold selectTarget selectTargetStableSpec
    by_cases hm : m.isEmpty = true
    · rw [if_pos hm, if_pos hm]
    · rw [if_neg hm, if_neg hm]
      have hhead := head?_sortByValue (m.filter fun it => decide (it.2 < masteryThreshold))
      cases hs : sortByValue (m.filter fun it => decide (it.2 < masteryThreshold)) with
      | nil =>
        rw [hs] at hhead
        rw [← hhead]
        rfl
      | cons b bs =>
        rw [hs] at hhead
        rw [← hhead]
        rfl
  · intro hne
    have hm : m.isEmpty = false := by
      cases m with
      | nil => exact absurd rfl hne
      | cons a t => rfl
    constructor
    · intro h
      unfold selectTarget at h
      rw [hm] at h
      simp only [Bool.false_eq_true, if_false] at h
      cases hs : sortByValue (m.filter fun it => decide (it.2 < masteryThreshold)) with
      | nil =>
        exact (filter_below_eq_nil_iff m).mp ((sortByValue_eq_nil_iff _).mp hs)
      | cons b bs =>
        rw [hs] at h
        simp at h
    · intro hall
      have hfil : m.filter (fun it => decide (it.2 < masteryThreshold)) = [] :=
        (filter_below_eq_nil_iff m).mpr hall
      unfold selectTarget
      rw [hm, hfil]
      rfl

/-- Witness for C2's amended statement on a one-concept map. -/
theorem claim_C2_witness :
    selectTarget [("a", 1 / 2)] = selectTargetStableSpec [("a", 1 / 2)] ∧
    (selectTarget [("a", 1 / 2)] = Except.ok Option.none ↔
      ∀ p ∈ [("a", (1 : ℚ) / 2)], masteryThreshold ≤ p.2) :=
  ⟨(claim_C2_selection_stable_min [("a", 1 / 2)]).1,
    (claim_C2_selection_stable_min [("a", 1 / 2)]).2 (by simp)⟩

/-! ## Helper lemmas about the report bands -/

theorem mem_strengthsOf (m : List (String × ℚ)) (c : String) :
    c ∈ strengthsOf m ↔ ∃ p, p ∈ m ∧ p.1 = c ∧ (90 : ℚ) / 100 ≤ p.2 := by
  simp only [strengthsOf, List.mem_map, List.mem_filter, decide_eq_true_eq]
  constructor
  · rintro ⟨p, ⟨hp, hs⟩, hc⟩
    exact ⟨p, hp, hc, hs⟩
  · rintro ⟨p, hp, hc, hs⟩
    exact ⟨p, ⟨hp, hs⟩, hc⟩

theorem mem_weaknessesOf (m : List (String × ℚ)) (c : String) :
    c ∈ weaknessesOf m ↔ ∃ p, p ∈ m ∧ p.1 = c ∧ p.2 < (60 : ℚ) / 100 := by
  simp only [weaknessesOf, List.mem_map, List.mem_filter, decide_eq_true_eq]
  constructor
  · rintro ⟨p, ⟨hp, hs⟩, hc⟩
    exact ⟨p, hp, hc, hs⟩
  · rintro ⟨p, hp, hc, hs⟩
    exact ⟨p, ⟨hp, hs⟩, hc⟩

/-- Claim C5: over a competence map with distinct concept keys, the
strengths list holds exactly the concepts with mastery ≥ 0.90, the
weaknesses list exactly those with mastery < 0.60, the two lists are
disjoint, the middle band [0.60, 0.90) lands in neither, and both lists
only ever mention concepts of the map. -/
theorem claim_C5_report_band_partition (m : List (String × ℚ))
    (hnodup : (m.map Prod.fst).Nodup) :
    (∀ p ∈ m,
      (p.1 ∈ strengthsOf m ↔ (90 : ℚ) / 100 ≤ p.2) ∧
      (p.1 ∈ weaknessesOf m ↔ p.2 < (60 : ℚ) / 100) ∧
      ¬(p.1 ∈ strengthsOf m ∧ p.1 ∈ weaknessesOf m) ∧
      ((60 : ℚ) / 100 ≤ p.2 ∧ p.2 < 90 / 100 →
        p.1 ∉ strengthsOf m ∧ p.1 ∉ weaknessesOf m)) ∧
    (∀ c : String, c ∈ strengthsOf m ∨ c ∈ weaknessesOf m →
      ∃ p, p ∈ m ∧ p.1 = c) := by
  have hinj := List.inj_on_of_nodup_map hnodup
  have hstr : ∀ p ∈ m, (p.1 ∈ strengthsOf m ↔ (90 : ℚ) / 100 ≤ p.2) := by
    intro p hp
    rw [mem_strengthsOf]
    constructor
    · rintro ⟨q, hq, hqc, hqs⟩
      rw [hinj hp hq hqc.symm]
      exact hqs
    · intro hs
      exact ⟨p, hp, rfl, hs⟩
  have hweak : ∀ p ∈ m, (p.1 ∈ weaknessesOf m ↔ p.2 < (60 : ℚ) / 100) := by
    intro p hp
    rw [mem_weaknessesOf]
    constructor
    · rintro ⟨q, hq, hqc, hqs⟩
      rw [hinj hp hq hqc.symm]
      exact hqs
    · intro hs
      exact ⟨p, hp, rfl, hs⟩
  refine ⟨fun p hp => ⟨hstr p hp, hweak p hp, ?_, ?_⟩, ?_⟩
  · rintro ⟨h1, h2⟩
    rw [hstr p hp] at h1
    rw [hweak p hp] at h2
    linarith
  · rintro ⟨hlo, hhi⟩
    constructor
    · rw [hstr p hp]
      linarith
    · rw [hweak p hp]
      linarith
  · intro c hc
    rcases hc with hc | hc
    · rcases (mem_strengthsOf m c).mp hc with ⟨p, hp, hpc, _⟩
      exact ⟨p, hp, hpc⟩
    · rcases (mem_weaknessesOf m c).mp hc with ⟨p, hp, hpc, _⟩
      exact ⟨p, hp, hpc⟩

/-- Witness for C5 on a three-band map. -/
theorem claim_C5_witness :
    (∀ p ∈ [("a", (95 : ℚ) / 100), ("b", 1 / 2), ("c", 7 / 10)],
      (p.1 ∈ strengthsOf [("a", (95 : ℚ) / 100), ("b", 1 / 2), ("c", 7 / 10)] ↔ (90 : ℚ) / 100 ≤ p.2) ∧
      (p.1 ∈ weaknessesOf [("a", (95 : ℚ) / 100), ("b", 1 / 2), ("c", 7 / 10)] ↔ p.2 < (60 : ℚ) / 100) ∧
      ¬(p.1 ∈ strengthsOf [("a", (95 : ℚ) / 100), ("b", 1 / 2), ("c", 7 / 10)] ∧
        p.1 ∈ weaknessesOf [("a", (95 : ℚ) / 100), ("b", 1 / 2), ("c", 7 / 10)]) ∧
      ((60 : ℚ) / 100 ≤ p.2 ∧ p.2 < 90 / 100 →
        p.1 ∉ strengthsOf [("a", (95 : ℚ) / 100), ("b", 1 / 2), ("c", 7 / 10)] ∧
        p.1 ∉ weaknessesOf [("a", (95 : ℚ) / 100), ("b", 1 / 2), ("c", 7 / 10)])) ∧
    (∀ c : String,
      c ∈ strengthsOf [("a", (95 : ℚ) / 100), ("b", 1 / 2), ("c", 7 / 10)] ∨
        c ∈ weaknessesOf [("a", (95 : ℚ) / 100), ("b", 1 / 2), ("c", 7 / 10)] →
      ∃ p, p ∈ [("a", (95 : ℚ) / 100), ("b", 1 / 2), ("c", 7 / 10)] ∧ p.1 = c) :=
  claim_C5_report_band_partition [("a", (95 : ℚ) / 100), ("b", 1 / 2), ("c", 7 / 10)]
    (by decide)

/-- Claim C9 (what the code does): every report `generate_report_for_user`
produces contains the detailed paid-tier block — the function takes no
access-tier flag, so a free-tier caller receives the details too. -/
theorem claim_C9_details_always_included
    (db : List LearnerProfile) (uid : String) (n : ℕ) (r : ReportData)
    (h : generateReportForUser db uid n = Option.some r) :
    r.details = Option.some detailedAnalysis := by
  unfold generateReportForUser at h
  cases hfp : findProfile db uid with
  | none =>
    rw [hfp] at h
    exact absurd h (by simp)
  | some profile =>
    rw [hfp] at h
    by_cases he : profile.competenceMap.isEmpty
    · simp [he] at h
    · simp only [he, Bool.false_eq_true, if_false, if_neg, Option.some.injEq] at h
      rw [← h]

/-- Witness for C9: the report for the sample profile carries the details
block. -/
theorem claim_C9_witness :
    (ReportData.mk (summaryAnalysis 3 (strengthsOf [("math", 1 / 2)]))
      (Option.some detailedAnalysis) (strengthsOf [("math", (1 : ℚ) / 2)])
      (weaknessesOf [("math", (1 : ℚ) / 2)]) 0).details =
      Option.some detailedAnalysis :=
  claim_C9_details_always_included [sampleProfile] "u1" 3 _ rfl

end PersonalizationEngine
